import Mathlib

/-!
Verification of the deployment-orchestration core of the `ecspresso` tool
(`ecspresso.go`) against its natural-language specification.

The Go source is shallowly embedded: each relevant function is translated
into a pure Lean function over explicit inputs.  Remote (AWS) calls are
modelled by passing their responses as arguments: a paginated listing
becomes the finite sequence of pages the remote API returns (an exhausted
cursor yields an empty page, which is also how running off the end of the
sequence is modelled), a per-target update call becomes an oracle giving
each call's success or failure, and printing becomes an explicit list of
printed items.  Go pointer fields (`*string`, `*int64`, ...) become
`Option` values; a nil-pointer dereference, which panics in Go, makes the
embedded function return `none` (undefined).
-/

set_option autoImplicit false

namespace Ecspresso

/-! ## Rollback resolver (`FindRollbackTarget`, ecspresso.go:473-502)

The Go loop repeatedly lists one page of task-definition ARNs for the
family, sorted descending.  An empty page means the history is exhausted
and yields the not-found error.  Within a page, a `found` flag is set the
moment the input ARN is seen; the next ARN observed after that point (on
this page or a later one) is returned immediately. -/

def notFoundMsg : String := "rollback target is not found"

/-- One page of the scan: either an answer (`Sum.inr`) was returned from
inside the page loop, or the page was fully consumed and the updated
`found` flag (`Sum.inl`) carries over to the next page. -/
def scanPage (arn : String) : Bool → List String → Sum Bool String
  | true, td :: _ => Sum.inr td
  | false, td :: rest => scanPage arn (td == arn) rest
  | found, [] => Sum.inl found

/-- The outer pagination loop of `FindRollbackTarget`: consume the pages the
listing API returns in order; an empty page (equivalently, an exhausted page
sequence) yields the not-found error. -/
def listPagesScan (arn : String) : Bool → List (List String) → Except String String
  | _, [] => Except.error notFoundMsg
  | found, page :: rest =>
    if page.isEmpty then Except.error notFoundMsg
    else
      match scanPage arn found page with
      | Sum.inr a => Except.ok a
      | Sum.inl found2 => listPagesScan arn found2 rest

/-- `FindRollbackTarget`, with the remote listing modelled as the sequence
of pages it returns for the family of `arn`. -/
def FindRollbackTarget (pages : List (List String)) (arn : String) : Except String String :=
  listPagesScan arn false pages

/-- Reference form of the same scan over the flattened (un-paginated)
history, used to relate the paged loop to the linear order of revisions. -/
def linearScan (arn : String) : Bool → List String → Except String String
  | _, [] => Except.error notFoundMsg
  | true, td :: _ => Except.ok td
  | false, td :: rest => linearScan arn (td == arn) rest

theorem linearScan_append (arn : String) (p rest : List String) :
    ∀ found : Bool, linearScan arn found (p ++ rest) =
      match scanPage arn found p with
      | Sum.inr a => Except.ok a
      | Sum.inl f => linearScan arn f rest := by
  induction p with
  | nil => intro found; simp [scanPage]
  | cons td tl ih =>
    intro found
    cases found with
    | true => simp [scanPage, linearScan]
    | false =>
      simp only [List.cons_append, linearScan, scanPage]
      exact ih (td == arn)

theorem listPagesScan_eq_linearScan (arn : String) :
    ∀ (pages : List (List String)) (found : Bool), (∀ p ∈ pages, p ≠ []) →
      listPagesScan arn found pages = linearScan arn found pages.flatten := by
  intro pages
  induction pages with
  | nil => intro found _; simp [listPagesScan, linearScan]
  | cons page rest ih =>
    intro found hne
    have hpage : page.isEmpty = false := by
      cases page with
      | nil => exact absurd rfl (hne [] (List.mem_cons_self [] rest))
      | cons a l => rfl
    have hrest : ∀ p ∈ rest, p ≠ [] := fun p hp => hne p (List.mem_cons_of_mem page hp)
    simp only [listPagesScan, List.flatten_cons, hpage, Bool.false_eq_true, if_false]
    rw [linearScan_append]
    cases h : scanPage arn found page with
    | inr a => simp only [h]
    | inl f => simp only [h]; exact ih f hrest

theorem linearScan_found (arn : String) :
    ∀ pre : List String, arn ∉ pre → ∀ (next : String) (post : List String),
      linearScan arn false (pre ++ arn :: next :: post) = Except.ok next := by
  intro pre
  induction pre with
  | nil =>
    intro _ next post
    simp only [List.nil_append, linearScan, beq_self_eq_true]
  | cons x xs ih =>
    intro hnotin next post
    have hx : x ≠ arn := fun h => hnotin (h ▸ List.mem_cons_self x xs)
    have hmem : arn ∉ xs := fun h => hnotin (List.mem_cons_of_mem x h)
    simp only [List.cons_append, linearScan, beq_eq_false_iff_ne.mpr hx]
    exact ih hmem next post

theorem linearScan_not_mem (arn : String) :
    ∀ l : List String, arn ∉ l → linearScan arn false l = Except.error notFoundMsg := by
  intro l
  induction l with
  | nil => intro _; rfl
  | cons x xs ih =>
    intro hnotin
    have hx : x ≠ arn := fun h => hnotin (h ▸ List.mem_cons_self x xs)
    simp only [linearScan, beq_eq_false_iff_ne.mpr hx]
    exact ih (fun h => hnotin (List.mem_cons_of_mem x h))

theorem linearScan_oldest (arn : String) :
    ∀ pre : List String, arn ∉ pre →
      linearScan arn false (pre ++ [arn]) = Except.error notFoundMsg := by
  intro pre
  induction pre with
  | nil => simp [linearScan, beq_self_eq_true]
  | cons x xs ih =>
    intro hnotin
    have hx : x ≠ arn := fun h => hnotin (h ▸ List.mem_cons_self x xs)
    simp only [List.cons_append, linearScan, beq_eq_false_iff_ne.mpr hx]
    exact ih (fun h => hnotin (List.mem_cons_of_mem x h))

/-- C1: for a family history presented as nonempty descending listing pages
whose concatenation contains the input ARN (at its first occurrence)
followed by at least one further ARN, `FindRollbackTarget` returns exactly
the ARN immediately following the input ARN, regardless of how the history
is cut into pages and of anything that follows the answer. -/
theorem findRollbackTarget_returns_next (pages : List (List String)) (arn next : String)
    (pre post : List String)
    (hpages : ∀ p ∈ pages, p ≠ [])
    (hsplit : pages.flatten = pre ++ arn :: next :: post)
    (hfst : arn ∉ pre) :
    FindRollbackTarget pages arn = Except.ok next := by
  unfold FindRollbackTarget
  rw [listPagesScan_eq_linearScan arn pages false hpages, hsplit]
  exact linearScan_found arn pre hfst next post

/-- Witness for C1 at the spec's example: history `[v5,v4,v3,v2,v1]` split
across two pages with input `v3` resolves to `v2`. -/
theorem findRollbackTarget_returns_next_witness :
    FindRollbackTarget [["v5", "v4", "v3"], ["v2", "v1"]] "v3" = Except.ok "v2" :=
  findRollbackTarget_returns_next [["v5", "v4", "v3"], ["v2", "v1"]] "v3" "v2"
    ["v5", "v4"] ["v1"] (by decide) (by decide) (by decide)

/-- C2: if the input ARN is the oldest revision (last in the concatenated
descending history, followed by nothing) or does not occur in any page,
`FindRollbackTarget` terminates after exhausting the pages and returns the
"rollback target is not found" error. -/
theorem findRollbackTarget_not_found (pages : List (List String)) (arn : String)
    (hpages : ∀ p ∈ pages, p ≠ [])
    (h : (∃ pre, pages.flatten = pre ++ [arn] ∧ arn ∉ pre) ∨ arn ∉ pages.flatten) :
    FindRollbackTarget pages arn = Except.error "rollback target is not found" := by
  unfold FindRollbackTarget
  rw [listPagesScan_eq_linearScan arn pages false hpages]
  rcases h with ⟨pre, hsplit, hfst⟩ | hnotin
  · rw [hsplit]; exact linearScan_oldest arn pre hfst
  · exact linearScan_not_mem arn pages.flatten hnotin

/-- Witness for C2: input `v1` is the oldest revision of the one-page
history `[v5,v4,v3,v2,v1]`, so resolution fails with not-found. -/
theorem findRollbackTarget_not_found_witness :
    FindRollbackTarget [["v5", "v4", "v3", "v2", "v1"]] "v1" =
      Except.error "rollback target is not found" :=
  findRollbackTarget_not_found [["v5", "v4", "v3", "v2", "v1"]] "v1"
    (by decide) (Or.inl ⟨["v5", "v4", "v3", "v2"], by decide, by decide⟩)

/-! ## Convergence waiter arithmetic (`WaitServiceStable`, ecspresso.go:548-557)

The Go code computes, from a `time.Duration` timeout (an integer count of
nanoseconds, non-negative for a configured timeout) and the fixed waiter
delay of 15 seconds:
  `attempts := int(timeout / delay) + 1; if timeout % delay > 0 { attempts++ }`
using Go integer division and modulus. -/

def second : Nat := 1000000000

def waiterDelay : Nat := 15 * second

def waitAttempts (timeout : Nat) : Nat :=
  let attempts := timeout / waiterDelay + 1
  if timeout % waiterDelay > 0 then attempts + 1 else attempts

/-- C3: for every non-negative timeout, `WaitServiceStable` computes the
waiter max-attempts as floor(timeout / delay) + 1, plus one more if
timeout mod delay > 0, where the delay is fixed at 15 seconds; consequently
attempts * delay ≥ timeout. -/
theorem waitServiceStable_attempts (timeout : Nat) :
    waitAttempts timeout =
      timeout / waiterDelay + 1 + (if timeout % waiterDelay > 0 then 1 else 0) ∧
    waiterDelay = 15 * second ∧
    timeout ≤ waitAttempts timeout * waiterDelay := by
  refine ⟨?_, rfl, ?_⟩
  · simp only [waitAttempts]
    split <;> omega
  · have hd : waiterDelay = 15000000000 := by norm_num [waiterDelay, second]
    simp only [waitAttempts, hd]
    split <;> omega

/-- C4 counterexample: at a 20-second timeout (not an exact multiple of the
15-second delay) the code computes 3 attempts, while
ceil(timeout/delay) = 2, so attempts ≠ ceil(timeout/delay). -/
theorem waitAttempts_ne_ceil :
    (20 * second) % waiterDelay ≠ 0 ∧
    waitAttempts (20 * second) = 3 ∧
    (20 * second + waiterDelay - 1) / waiterDelay = 2 := by
  refine ⟨?_, ?_, ?_⟩ <;> norm_num [waitAttempts, waiterDelay, second]

/-- C4 amended: when the timeout is not an exact multiple of the delay the
computed attempts equal ceil(timeout/delay) + 1 (one more than the claimed
ceiling), and when it is an exact multiple they equal timeout/delay + 1. -/
theorem waitAttempts_ceil_amended (timeout : Nat) :
    (timeout % waiterDelay ≠ 0 →
       waitAttempts timeout = (timeout + waiterDelay - 1) / waiterDelay + 1) ∧
    (timeout % waiterDelay = 0 →
       waitAttempts timeout = timeout / waiterDelay + 1) := by
  have hd : waiterDelay = 15000000000 := by norm_num [waiterDelay, second]
  constructor
  · intro h
    simp only [waitAttempts, hd] at *
    split <;> omega
  · intro h
    simp only [waitAttempts, hd] at *
    split <;> omega

/-- Witness for the amended C4 at timeout = 20 seconds: the attempts value
is the ceiling plus one. -/
theorem waitAttempts_ceil_amended_witness :
    waitAttempts (20 * second) = (20 * second + waiterDelay - 1) / waiterDelay + 1 :=
  (waitAttempts_ceil_amended (20 * second)).1 (by norm_num [waiterDelay, second])

/-! ## Data model for task definitions, tasks and logging

Mirrors the AWS SDK record types used by `ecspresso.go`; Go pointer fields
become `Option` values and Go maps become functions to `Option`. -/

structure LogConfiguration where
  logDriver : Option String
  options : String → Option String

structure ContainerDefinition where
  name : Option String
  logConfiguration : Option LogConfiguration

structure PlacementConstraint where
  expression : Option String
  kind : Option String

structure ProxyConfiguration where
  containerName : Option String
  kind : Option String

structure Volume where
  name : Option String

/-- `ecs.TaskDefinition` as loaded from the operator's definition file or
described from the platform: the eleven fields `RegisterTaskDefinition`
carries forward, plus the platform-assigned fields the spec says must be
dropped. -/
structure TaskDefinition where
  containerDefinitions : List ContainerDefinition
  cpu : Option String
  executionRoleArn : Option String
  family : Option String
  memory : Option String
  networkMode : Option String
  placementConstraints : List PlacementConstraint
  requiresCompatibilities : List String
  taskRoleArn : Option String
  proxyConfiguration : Option ProxyConfiguration
  volumes : List Volume
  -- platform-assigned fields
  revision : Option Int
  status : Option String
  taskDefinitionArn : Option String
  registeredAt : Option Int
  registeredBy : Option String
  compatibilities : List String

/-- `ecs.RegisterTaskDefinitionInput` restricted to the fields
`RegisterTaskDefinition` (ecspresso.go:560-584) actually sets. -/
structure RegisterTaskDefinitionInput where
  containerDefinitions : List ContainerDefinition
  cpu : Option String
  executionRoleArn : Option String
  family : Option String
  memory : Option String
  networkMode : Option String
  placementConstraints : List PlacementConstraint
  requiresCompatibilities : List String
  taskRoleArn : Option String
  proxyConfiguration : Option ProxyConfiguration
  volumes : List Volume

/-- The registration request `RegisterTaskDefinition` builds from a loaded
task definition. -/
def RegisterTaskDefinition (td : TaskDefinition) : RegisterTaskDefinitionInput :=
  { containerDefinitions := td.containerDefinitions
    cpu := td.cpu
    executionRoleArn := td.executionRoleArn
    family := td.family
    memory := td.memory
    networkMode := td.networkMode
    placementConstraints := td.placementConstraints
    requiresCompatibilities := td.requiresCompatibilities
    taskRoleArn := td.taskRoleArn
    proxyConfiguration := td.proxyConfiguration
    volumes := td.volumes }

/-- C5: the registration request contains exactly the allow-listed fields
copied from the input (first conjunct: each request field equals the
corresponding input field), and no platform-assigned field of the input
influences the request (second conjunct: the request is invariant under
arbitrary changes to revision, status, ARN, registration timestamp and
registrant, and platform-computed compatibilities). -/
theorem registerTaskDefinition_allowlist (td : TaskDefinition) :
    ((RegisterTaskDefinition td).containerDefinitions = td.containerDefinitions ∧
     (RegisterTaskDefinition td).cpu = td.cpu ∧
     (RegisterTaskDefinition td).executionRoleArn = td.executionRoleArn ∧
     (RegisterTaskDefinition td).family = td.family ∧
     (RegisterTaskDefinition td).memory = td.memory ∧
     (RegisterTaskDefinition td).networkMode = td.networkMode ∧
     (RegisterTaskDefinition td).placementConstraints = td.placementConstraints ∧
     (RegisterTaskDefinition td).requiresCompatibilities = td.requiresCompatibilities ∧
     (RegisterTaskDefinition td).taskRoleArn = td.taskRoleArn ∧
     (RegisterTaskDefinition td).proxyConfiguration = td.proxyConfiguration ∧
     (RegisterTaskDefinition td).volumes = td.volumes) ∧
    ∀ (rev : Option Int) (st arn rBy : Option String) (rAt : Option Int)
      (compat : List String),
      RegisterTaskDefinition
        { td with revision := rev, status := st, taskDefinitionArn := arn,
                  registeredAt := rAt, registeredBy := rBy,
                  compatibilities := compat } =
        RegisterTaskDefinition td :=
  ⟨⟨rfl, rfl, rfl, rfl, rfl, rfl, rfl, rfl, rfl, rfl, rfl⟩,
   fun _ _ _ _ _ _ => rfl⟩

/-! ## AutoScaling suspension toggle (`suspendAutoScaling`, ecspresso.go:736-772)

The scalable-target listing response and the outcome of each
`RegisterScalableTarget` call are external inputs: `targets` is the list the
listing returned for resource id `service/<cluster>/<service>`, and
`updateFails t` tells whether the platform rejects the update call for
target `t`.  The result records every update call issued, in order, together
with the overall outcome. -/

structure ScalableTarget where
  serviceNamespace : String
  scalableDimension : String
  resourceId : String

structure SuspendedState where
  dynamicScalingInSuspended : Option Bool
  dynamicScalingOutSuspended : Option Bool
  scheduledScalingSuspended : Option Bool

structure RegisterScalableTargetInput where
  serviceNamespace : String
  scalableDimension : String
  resourceId : String
  suspendedState : Option SuspendedState

/-- The update request issued for one scalable target: all three suspension
flags are set to the requested boolean. -/
def mkSuspendUpdate (suspend : Bool) (t : ScalableTarget) : RegisterScalableTargetInput :=
  { serviceNamespace := t.serviceNamespace
    scalableDimension := t.scalableDimension
    resourceId := t.resourceId
    suspendedState := some
      { dynamicScalingInSuspended := some suspend
        dynamicScalingOutSuspended := some suspend
        scheduledScalingSuspended := some suspend } }

/-- The error message `suspendAutoScaling` wraps around a failed update
(`%t` renders a Go bool as `true`/`false`). -/
def suspendFailMsg (t : ScalableTarget) (suspend : Bool) : String :=
  "failed to register scalable target " ++ t.resourceId ++ " set suspend to " ++
    (if suspend then "true" else "false")

/-- The per-target loop: issue one update per target; a failing update
aborts the loop with the wrapping error (the failing call was still
issued). -/
def suspendLoop (suspend : Bool) (updateFails : ScalableTarget → Bool) :
    List ScalableTarget → List RegisterScalableTargetInput × Except String Unit
  | [] => ([], Except.ok ())
  | t :: rest =>
    if updateFails t then ([mkSuspendUpdate suspend t], Except.error (suspendFailMsg t suspend))
    else
      let r := suspendLoop suspend updateFails rest
      (mkSuspendUpdate suspend t :: r.1, r.2)

/-- `suspendAutoScaling`: zero targets is a success with no update issued;
otherwise run the per-target loop. -/
def suspendAutoScaling (targets : List ScalableTarget)
    (updateFails : ScalableTarget → Bool) (suspend : Bool) :
    List RegisterScalableTargetInput × Except String Unit :=
  if targets.isEmpty then ([], Except.ok ())
  else suspendLoop suspend updateFails targets

theorem suspendLoop_all_ok (suspend : Bool) (updateFails : ScalableTarget → Bool) :
    ∀ targets : List ScalableTarget, (∀ t ∈ targets, updateFails t = false) →
      suspendLoop suspend updateFails targets =
        (targets.map (mkSuspendUpdate suspend), Except.ok ()) := by
  intro targets
  induction targets with
  | nil => intro _; rfl
  | cons t rest ih =>
    intro hok
    have ht : updateFails t = false := hok t (List.mem_cons_self t rest)
    have hr := ih (fun u hu => hok u (List.mem_cons_of_mem t hu))
    simp [suspendLoop, ht, hr]

theorem suspendLoop_issued_are_updates (suspend : Bool)
    (updateFails : ScalableTarget → Bool) :
    ∀ targets : List ScalableTarget,
      ∀ u ∈ (suspendLoop suspend updateFails targets).1,
        ∃ t ∈ targets, u = mkSuspendUpdate suspend t := by
  intro targets
  induction targets with
  | nil => intro u hu; simp [suspendLoop] at hu
  | cons t rest ih =>
    intro u hu
    by_cases ht : updateFails t = true
    · simp [suspendLoop, ht] at hu
      exact ⟨t, List.mem_cons_self t rest, hu⟩
    · simp [suspendLoop, ht] at hu
      rcases hu with hu | hu
      · exact ⟨t, List.mem_cons_self t rest, hu⟩
      · rcases ih u hu with ⟨v, hv, huv⟩
        exact ⟨v, List.mem_cons_of_mem t hv, huv⟩

theorem suspendLoop_first_failure (suspend : Bool) (updateFails : ScalableTarget → Bool) :
    ∀ (pre : List ScalableTarget) (t : ScalableTarget) (post : List ScalableTarget),
      (∀ u ∈ pre, updateFails u = false) → updateFails t = true →
      suspendLoop suspend updateFails (pre ++ t :: post) =
        ((pre ++ [t]).map (mkSuspendUpdate suspend),
         Except.error (suspendFailMsg t suspend)) := by
  intro pre
  induction pre with
  | nil =>
    intro t post _ ht
    simp [suspendLoop, ht]
  | cons p ps ih =>
    intro t post hok ht
    have hp : updateFails p = false := hok p (List.mem_cons_self p ps)
    have hr := ih t post (fun u hu => hok u (List.mem_cons_of_mem p hu)) ht
    simp [suspendLoop, hp, hr]

/-- C6: with zero scalable targets the toggle succeeds without issuing any
update call; with all updates succeeding it issues exactly one update per
target (in listing order) and succeeds; every update it ever issues sets
all three suspension flags to the requested boolean; and if the update for
some target fails while all earlier ones succeeded, the loop aborts with an
error naming that target, the issued-call list still containing the
already-applied earlier updates (nothing is rolled back) plus the failed
call itself. -/
theorem suspendAutoScaling_spec (targets : List ScalableTarget)
    (updateFails : ScalableTarget → Bool) (suspend : Bool) :
    (targets = [] →
       suspendAutoScaling targets updateFails suspend = ([], Except.ok ())) ∧
    ((∀ t ∈ targets, updateFails t = false) →
       suspendAutoScaling targets updateFails suspend =
         (targets.map (mkSuspendUpdate suspend), Except.ok ())) ∧
    (∀ u ∈ (suspendAutoScaling targets updateFails suspend).1,
       u.suspendedState = some
         { dynamicScalingInSuspended := some suspend
           dynamicScalingOutSuspended := some suspend
           scheduledScalingSuspended := some suspend }) ∧
    (∀ (pre : List ScalableTarget) (t : ScalableTarget) (post : List ScalableTarget),
       targets = pre ++ t :: post →
       (∀ u ∈ pre, updateFails u = false) → updateFails t = true →
       suspendAutoScaling targets updateFails suspend =
         ((pre ++ [t]).map (mkSuspendUpdate suspend),
          Except.error (suspendFailMsg t suspend))) := by
  refine ⟨?_, ?_, ?_, ?_⟩
  · intro h; simp [suspendAutoScaling, h]
  · intro hok
    cases targets with
    | nil => rfl
    | cons t rest =>
      simp only [suspendAutoScaling, List.isEmpty_cons, Bool.false_eq_true, if_false]
      exact suspendLoop_all_ok suspend updateFails (t :: rest) hok
  · intro u hu
    cases targets with
    | nil => simp [suspendAutoScaling] at hu
    | cons t rest =>
      simp only [suspendAutoScaling, List.isEmpty_cons, Bool.false_eq_true, if_false] at hu
      rcases suspendLoop_issued_are_updates suspend updateFails (t :: rest) u hu with
        ⟨v, _, huv⟩
      subst huv; rfl
  · intro pre t post hsplit hok ht
    subst hsplit
    have hne : (pre ++ t :: post).isEmpty = false := by
      cases pre <;> rfl
    simp only [suspendAutoScaling, hne, Bool.false_eq_true, if_false]
    exact suspendLoop_first_failure suspend updateFails pre t post hok ht

/-- Concrete scalable targets and failure oracle used by the C6 witness. -/
def tgtA : ScalableTarget :=
  { serviceNamespace := "ecs", scalableDimension := "ecs:service:DesiredCount",
    resourceId := "service/c1/svcA" }

def tgtB : ScalableTarget :=
  { serviceNamespace := "ecs", scalableDimension := "ecs:service:DesiredCount",
    resourceId := "service/c1/svcB" }

def sampleUpdateFails (t : ScalableTarget) : Bool :=
  t.resourceId == "service/c1/svcB"

/-- Witness for C6: with two listed targets where the second update fails,
exactly the first (applied) and second (failed) calls are issued and the
error names the failing target. -/
theorem suspendAutoScaling_spec_witness :
    suspendAutoScaling [tgtA, tgtB] sampleUpdateFails true =
      (([tgtA] ++ [tgtB]).map (mkSuspendUpdate true),
       Except.error (suspendFailMsg tgtB true)) :=
  (suspendAutoScaling_spec [tgtA, tgtB] sampleUpdateFails true).2.2.2
    [tgtA] tgtB [] rfl (by decide) (by decide)

/-! ## Per-tick deployment/event rendering
(`DescribeServiceDeployments`, ecspresso.go:158-181)

The fetched service record is the input; printing is modelled as the list
of items printed, in order: first every current deployment, then every
event whose creation timestamp is strictly after the wait's start time
(`(*event.CreatedAt).After(startedAt)`).  Timestamps are integers
(nanoseconds since the epoch). -/

structure Deployment where
  status : String
  desiredCount : Int
  runningCount : Int
  pendingCount : Int
deriving DecidableEq

structure Event where
  createdAt : Int
  message : String
deriving DecidableEq

structure Service where
  deployments : List Deployment
  events : List Event

inductive OutLine where
  | deployment (d : Deployment) : OutLine
  | event (e : Event) : OutLine
deriving DecidableEq

/-- The deployment-printing loop. -/
def printDeployments : List Deployment → List OutLine
  | [] => []
  | d :: rest => OutLine.deployment d :: printDeployments rest

/-- The event-printing loop with its strict `CreatedAt.After(startedAt)`
filter. -/
def printEvents (startedAt : Int) : List Event → List OutLine
  | [] => []
  | e :: rest =>
    if startedAt < e.createdAt then OutLine.event e :: printEvents startedAt rest
    else printEvents startedAt rest

/-- `DescribeServiceDeployments` as the sequence of items it prints on one
tick for a fetched service record. -/
def DescribeServiceDeployments (s : Service) (startedAt : Int) : List OutLine :=
  printDeployments s.deployments ++ printEvents startedAt s.events

theorem mem_printDeployments (d : Deployment) :
    ∀ deps : List Deployment, d ∈ deps → OutLine.deployment d ∈ printDeployments deps := by
  intro deps
  induction deps with
  | nil => intro h; cases h
  | cons x xs ih =>
    intro h
    rcases List.mem_cons.mp h with h | h
    · subst h; exact List.mem_cons_self _ _
    · exact List.mem_cons_of_mem _ (ih h)

theorem mem_printEvents (startedAt : Int) (e : Event) :
    ∀ evs : List Event,
      (OutLine.event e ∈ printEvents startedAt evs ↔
        e ∈ evs ∧ startedAt < e.createdAt) := by
  intro evs
  induction evs with
  | nil => simp [printEvents]
  | cons x xs ih =>
    by_cases hx : startedAt < x.createdAt
    · simp only [printEvents, if_pos hx, List.mem_cons, OutLine.event.injEq]
      constructor
      · rintro (h | h)
        · exact ⟨Or.inl h, h ▸ hx⟩
        · rcases ih.mp h with ⟨hm, hlt⟩
          exact ⟨Or.inr hm, hlt⟩
      · rintro ⟨h | h, hlt⟩
        · exact Or.inl h
        · exact Or.inr (ih.mpr ⟨h, hlt⟩)
    · simp only [printEvents, if_neg hx, List.mem_cons]
      constructor
      · intro h
        rcases ih.mp h with ⟨hm, hlt⟩
        exact ⟨Or.inr hm, hlt⟩
      · rintro ⟨h | h, hlt⟩
        · exact absurd (h ▸ hlt) hx
        · exact ih.mpr ⟨h, hlt⟩

theorem event_not_mem_printDeployments (e : Event) :
    ∀ deps : List Deployment, OutLine.event e ∉ printDeployments deps := by
  intro deps
  induction deps with
  | nil => intro h; cases h
  | cons x xs ih =>
    intro h
    rcases List.mem_cons.mp h with h | h
    · cases h
    · exact ih h

/-- C7: one tick of the deployment/event fetch prints every current
deployment of the service record, and prints an event if and only if it is
one of the service's events with creation timestamp strictly after the wait
start time — events at or before the start time are never printed. -/
theorem describeServiceDeployments_prints (s : Service) (startedAt : Int) :
    (∀ d ∈ s.deployments,
       OutLine.deployment d ∈ DescribeServiceDeployments s startedAt) ∧
    (∀ e : Event,
       OutLine.event e ∈ DescribeServiceDeployments s startedAt ↔
         e ∈ s.events ∧ startedAt < e.createdAt) := by
  constructor
  · intro d hd
    exact List.mem_append_left _ (mem_printDeployments d s.deployments hd)
  · intro e
    constructor
    · intro h
      rcases List.mem_append.mp h with h | h
      · exact absurd h (event_not_mem_printDeployments e s.deployments)
      · exact (mem_printEvents startedAt e s.events).mp h
    · intro h
      exact List.mem_append_right _ ((mem_printEvents startedAt e s.events).mpr h)

/-- Concrete service record for the C7 witness, with wait start time 100
and events at 90, 95, 105, 110 (the spec's t-10, t-5, t+5, t+10). -/
def sampleService : Service :=
  { deployments := [{ status := "PRIMARY", desiredCount := 2,
                      runningCount := 2, pendingCount := 0 }]
    events := [{ createdAt := 110, message := "e4" },
               { createdAt := 105, message := "e3" },
               { createdAt := 95, message := "e2" },
               { createdAt := 90, message := "e1" }] }

/-- Witness for C7: at start time 100, the event at 105 is printed and the
event at 95 is not. -/
theorem describeServiceDeployments_prints_witness :
    OutLine.event { createdAt := 105, message := "e3" } ∈
      DescribeServiceDeployments sampleService 100 ∧
    OutLine.event { createdAt := 95, message := "e2" } ∉
      DescribeServiceDeployments sampleService 100 :=
  ⟨((describeServiceDeployments_prints sampleService 100).2
      { createdAt := 105, message := "e3" }).mpr ⟨by decide, by decide⟩,
   fun h =>
     absurd (((describeServiceDeployments_prints sampleService 100).2
       { createdAt := 95, message := "e2" }).mp h).2 (by decide)⟩

/-! ## Tasks, task status and log tailing
(`DescribeTaskStatus` ecspresso.go:183-217, `GetLogInfo` ecspresso.go:631-643,
`WaitRunTask` ecspresso.go:677-708) -/

structure TaskContainer where
  name : Option String
  exitCode : Option Int
  reason : Option String
deriving DecidableEq

structure Task where
  taskArn : String
  containers : List TaskContainer
deriving DecidableEq

structure TaskFailure where
  arn : String
  reason : String

/-- The container-selection step of `DescribeTaskStatus`: when a watch name
is given, scan for a container with that name and fall back to the first
container when none matches; otherwise inspect the first container.
(The source compares `*c.Name == *name`, assuming names present; a
container with an absent name never matches here.)  `none` means the task
has no containers and the source's `Containers[0]` access is undefined. -/
def pickContainer (containers : List TaskContainer) (name : Option String) :
    Option TaskContainer :=
  match name with
  | some n =>
    match containers.find? (fun c => c.name == some n) with
    | some c => some c
    | none => containers.head?
  | none => containers.head?

/-- The terminal-status check of `DescribeTaskStatus` on the inspected
container: `if ExitCode != nil && *ExitCode != 0` error, `else if
Reason != nil` error, else success. -/
def containerCheck (c : TaskContainer) : Except String Unit :=
  if c.exitCode.getD 0 ≠ 0 then
    Except.error ("Container: " ++ c.name.getD "" ++ ", Exit Code: " ++
      toString (c.exitCode.getD 0) ++
      (match c.reason with
       | some r => ", Reason: " ++ r
       | none => ""))
  else
    match c.reason with
    | some r => Except.error ("Container: " ++ c.name.getD "" ++ ", Reason: " ++ r)
    | none => Except.ok ()

/-- `DescribeTaskStatus` after a successful describe call: a per-task
failure entry short-circuits into its reason; otherwise the inspected
container's exit code and reason decide the outcome.  The outer `none`
marks the undefined case (no containers to inspect). -/
def DescribeTaskStatus (failures : List TaskFailure)
    (containers : List TaskContainer) (name : Option String) :
    Option (Except String Unit) :=
  match failures with
  | f :: _ => some (Except.error f.reason)
  | [] => (pickContainer containers name).map containerCheck

theorem containerCheck_error_iff (c : TaskContainer) :
    (∃ msg, containerCheck c = Except.error msg) ↔
      ((∃ code, c.exitCode = some code ∧ code ≠ 0) ∨ c.reason ≠ none) := by
  unfold containerCheck
  rcases hc : c.exitCode with _ | code
  · simp only [hc, Option.getD_none, ne_eq, not_true_eq_false, reduceIte]
    rcases hr : c.reason with _ | r
    · simp
    · simp
  · by_cases hz : code = 0
    · subst hz
      simp only [hc, Option.getD_some, ne_eq, not_true_eq_false, reduceIte]
      rcases hr : c.reason with _ | r
      · simp
      · simp
    · simp only [hc, Option.getD_some, ne_eq, hz, not_false_eq_true, reduceIte]
      constructor
      · intro _; exact Or.inl ⟨code, rfl, hz⟩
      · intro _; exact ⟨_, rfl⟩

/-- C9: after a describe call that succeeds with no per-task failure entry,
`DescribeTaskStatus` returns an error if and only if the inspected
container reports a non-zero exit code or a non-nil failure reason, and it
returns success when the exit code is zero or absent and no reason is
present, even though the task has stopped. -/
theorem describeTaskStatus_error_iff (containers : List TaskContainer)
    (name : Option String) (c : TaskContainer)
    (hpick : pickContainer containers name = some c) :
    ((∃ msg, DescribeTaskStatus [] containers name = some (Except.error msg)) ↔
       ((∃ code, c.exitCode = some code ∧ code ≠ 0) ∨ c.reason ≠ none)) ∧
    (c.exitCode.getD 0 = 0 → c.reason = none →
       DescribeTaskStatus [] containers name = some (Except.ok ())) := by
  unfold DescribeTaskStatus
  rw [hpick]
  constructor
  · rw [← containerCheck_error_iff c]
    constructor
    · rintro ⟨msg, hmsg⟩
      exact ⟨msg, by simpa using hmsg⟩
    · rintro ⟨msg, hmsg⟩
      exact ⟨msg, by simp [hmsg]⟩
  · intro hz hr
    simp only [Option.map_some, Option.some.injEq]
    unfold containerCheck
    simp [hz, hr]

/-- Witness for C9: a stopped container with exit code 0 and no reason
yields success. -/
theorem describeTaskStatus_error_iff_witness :
    DescribeTaskStatus []
      [{ name := some "app", exitCode := some 0, reason := none }] none =
      some (Except.ok ()) :=
  (describeTaskStatus_error_iff
    [{ name := some "app", exitCode := some 0, reason := none }] none
    { name := some "app", exitCode := some 0, reason := none } rfl).2 rfl rfl

/-- `GetLogInfo`: derive (log group, log stream) from the task ARN, the
stream-prefix and group options, and the first container's name.  Each
Go nil dereference or out-of-range index becomes a `none` (the source
signature returns two strings and no error value). -/
def GetLogInfo (task : Task) (lc : LogConfiguration) : Option (String × String) := do
  let taskId ← (task.taskArn.splitOn "/")[1]?
  let streamPfx ← lc.options "awslogs-stream-prefix"
  let c0 ← task.containers.head?
  let containerName ← c0.name
  let logStream := String.intercalate "/" [streamPfx, containerName, taskId]
  let logGroup ← lc.options "awslogs-group"
  pure (logGroup, logStream)

/-- What `WaitRunTask` does besides the blocking stopped-wait: either
nothing (plain wait, no log fetch ever issued) or spawning the log-tailing
render loop on the resolved log group and stream. -/
inductive WaitMode where
  | plainWait : WaitMode
  | logTail (logGroup logStream : String) : WaitMode
deriving DecidableEq

/-- The gate at the top of `WaitRunTask`:
`if lc == nil || *lc.LogDriver != "awslogs" ||
   lc.Options["awslogs-stream-prefix"] == nil` take the plain wait,
otherwise resolve the log info and spawn the tail loop.  `none` marks the
undefined executions (a Go nil-pointer dereference: a present configuration
with a nil `LogDriver`, or a failure inside `GetLogInfo`). -/
def waitRunTaskMode (task : Task) (lc : Option LogConfiguration) : Option WaitMode :=
  match lc with
  | none => some WaitMode.plainWait
  | some c =>
    match c.logDriver with
    | none => none
    | some drv =>
      if drv == "awslogs" && (c.options "awslogs-stream-prefix").isSome then
        (GetLogInfo task c).map (fun p => WaitMode.logTail p.1 p.2)
      else some WaitMode.plainWait

theorem getLogInfo_none_of_arn (task : Task) (c : LogConfiguration)
    (h : (task.taskArn.splitOn "/").length < 2) : GetLogInfo task c = none := by
  have h1 : (task.taskArn.splitOn "/")[1]? = none := List.getElem?_eq_none (by omega)
  simp [GetLogInfo, h1]

theorem getLogInfo_none_of_no_pfx (task : Task) (c : LogConfiguration)
    (h : c.options "awslogs-stream-prefix" = none) : GetLogInfo task c = none := by
  cases h1 : (task.taskArn.splitOn "/")[1]? <;> simp [GetLogInfo, h1, h]

theorem getLogInfo_none_of_no_group (task : Task) (c : LogConfiguration)
    (h : c.options "awslogs-group" = none) : GetLogInfo task c = none := by
  cases h1 : (task.taskArn.splitOn "/")[1]? with
  | none => simp [GetLogInfo, h1]
  | some tid =>
    cases h2 : c.options "awslogs-stream-prefix" with
    | none => simp [GetLogInfo, h1, h2]
    | some pfx =>
      cases h3 : task.containers.head? with
      | none => simp [GetLogInfo, h1, h2, h3]
      | some c0 =>
        cases h4 : c0.name <;> simp [GetLogInfo, h1, h2, h3, h4, h]

theorem getLogInfo_none_of_no_containers (task : Task) (c : LogConfiguration)
    (h : task.containers = []) : GetLogInfo task c = none := by
  have h3 : task.containers.head? = none := by simp [h]
  cases h1 : (task.taskArn.splitOn "/")[1]? <;>
    cases h2 : c.options "awslogs-stream-prefix" <;>
      simp [GetLogInfo, h1, h2, h3]

theorem getLogInfo_defined_conditions (task : Task) (c : LogConfiguration)
    (p : String × String) (h : GetLogInfo task c = some p) :
    2 ≤ (task.taskArn.splitOn "/").length ∧
    c.options "awslogs-stream-prefix" ≠ none ∧
    c.options "awslogs-group" ≠ none ∧
    task.containers ≠ [] := by
  refine ⟨?_, ?_, ?_, ?_⟩
  · by_contra hlt
    rw [getLogInfo_none_of_arn task c (by omega)] at h
    cases h
  · intro hn
    rw [getLogInfo_none_of_no_pfx task c hn] at h
    cases h
  · intro hn
    rw [getLogInfo_none_of_no_group task c hn] at h
    cases h
  · intro hn
    rw [getLogInfo_none_of_no_containers task c hn] at h
    cases h

/-- C8 amended: `WaitRunTask` spawns the log-tailing render loop only when
the log configuration is present, its log driver equals "awslogs", and the
stream-name prefix option is set (first conjunct); when the configuration
is absent, or present with a present log driver failing that test, it
performs only the plain blocking stopped-wait with no log fetch (second and
third conjuncts).  (The remaining case — a present configuration with an
absent log driver — is not a plain wait: the gate dereferences the nil
driver, see the counterexample and C10.) -/
theorem waitRunTask_gate (task : Task) (lc : Option LogConfiguration) :
    (∀ g s, waitRunTaskMode task lc = some (WaitMode.logTail g s) →
       ∃ c, lc = some c ∧ c.logDriver = some "awslogs" ∧
         c.options "awslogs-stream-prefix" ≠ none) ∧
    (lc = none → waitRunTaskMode task lc = some WaitMode.plainWait) ∧
    (∀ c drv, lc = some c → c.logDriver = some drv →
       (drv ≠ "awslogs" ∨ c.options "awslogs-stream-prefix" = none) →
       waitRunTaskMode task lc = some WaitMode.plainWait) := by
  refine ⟨?_, ?_, ?_⟩
  · intro g s h
    cases lc with
    | none => simp [waitRunTaskMode] at h
    | some c =>
      refine ⟨c, rfl, ?_⟩
      cases hd : c.logDriver with
      | none => simp [waitRunTaskMode, hd] at h
      | some drv =>
        simp only [waitRunTaskMode, hd] at h
        by_cases hcond :
            (drv == "awslogs" && (c.options "awslogs-stream-prefix").isSome) = true
        · rw [Bool.and_eq_true] at hcond
          obtain ⟨hdrv, hpfx⟩ := hcond
          exact ⟨by rw [beq_iff_eq.mp hdrv], Option.isSome_iff_ne_none.mp hpfx⟩
        · rw [if_neg hcond] at h
          simp at h
  · intro h; subst h; rfl
  · intro c drv hlc hd hbad
    subst hlc
    simp only [waitRunTaskMode, hd]
    rw [if_neg]
    intro hcond
    rw [Bool.and_eq_true] at hcond
    obtain ⟨hdrv, hpfx⟩ := hcond
    rcases hbad with hbad | hbad
    · exact hbad (beq_iff_eq.mp hdrv)
    · rw [hbad] at hpfx; cases hpfx

/-- Concrete inputs for the C8 counterexample and C8/C10 witnesses. -/
def sampleTask : Task :=
  { taskArn := "arn:aws:ecs:region:acct:task/c1/abc123", containers := [] }

def lcNoDriver : LogConfiguration :=
  { logDriver := none, options := fun _ => none }

def lcNoPfx : LogConfiguration :=
  { logDriver := some "awslogs", options := fun _ => none }

def lcFull : LogConfiguration :=
  { logDriver := some "awslogs"
    options := fun k =>
      if k = "awslogs-stream-prefix" then some "web"
      else if k = "awslogs-group" then some "grp" else none }

/-- C8 counterexample: with a present log configuration whose log driver
field is absent, the gate check itself dereferences a nil pointer, so the
behavior is undefined (modelled as `none`) — in particular `WaitRunTask`
does not perform the plain blocking stopped-wait there, refuting the
claim's "in every other case" clause at this input. -/
theorem waitRunTask_gate_counterexample :
    waitRunTaskMode sampleTask (some lcNoDriver) ≠ some WaitMode.plainWait ∧
    waitRunTaskMode sampleTask (some lcNoDriver) = none := by
  constructor
  · intro h
    simp [waitRunTaskMode, lcNoDriver] at h
  · rfl

/-- Witness for the amended C8: with a present configuration whose driver
is "awslogs" but with no stream-prefix option set, the waiter takes the
plain blocking wait. -/
theorem waitRunTask_gate_witness :
    waitRunTaskMode sampleTask (some lcNoPfx) = some WaitMode.plainWait :=
  (waitRunTask_gate sampleTask (some lcNoPfx)).2.2 lcNoPfx "awslogs" rfl rfl
    (Or.inr rfl)

/-- C10: the log-tailing path is partial.  If the gate ever reaches the
log-tail mode, then the log driver field was present, the task ARN splits
on "/" into at least two segments, both the "awslogs-stream-prefix" and
"awslogs-group" options are present, and the task has at least one
container (first conjunct, these conditions are required); and the absence
of any one of them makes the corresponding operation undefined — no error
value is returned: a nil log driver makes the gate itself undefined, and
`GetLogInfo` is undefined on a slash-free ARN, a missing option, or an
empty container list (remaining conjuncts). -/
theorem logTail_requires_present_fields (task : Task) (c : LogConfiguration) :
    (∀ g s, waitRunTaskMode task (some c) = some (WaitMode.logTail g s) →
       c.logDriver ≠ none ∧
       2 ≤ (task.taskArn.splitOn "/").length ∧
       c.options "awslogs-stream-prefix" ≠ none ∧
       c.options "awslogs-group" ≠ none ∧
       task.containers ≠ []) ∧
    (c.logDriver = none → waitRunTaskMode task (some c) = none) ∧
    ((task.taskArn.splitOn "/").length < 2 → GetLogInfo task c = none) ∧
    (c.options "awslogs-stream-prefix" = none → GetLogInfo task c = none) ∧
    (c.options "awslogs-group" = none → GetLogInfo task c = none) ∧
    (task.containers = [] → GetLogInfo task c = none) := by
  refine ⟨?_, ?_, getLogInfo_none_of_arn task c, getLogInfo_none_of_no_pfx task c,
          getLogInfo_none_of_no_group task c, getLogInfo_none_of_no_containers task c⟩
  · intro g s h
    cases hd : c.logDriver with
    | none => simp [waitRunTaskMode, hd] at h
    | some drv =>
      simp only [waitRunTaskMode, hd] at h
      by_cases hcond :
          (drv == "awslogs" && (c.options "awslogs-stream-prefix").isSome) = true
      · rw [if_pos hcond] at h
        cases hg : GetLogInfo task c with
        | none => rw [hg] at h; cases h
        | some p =>
          rcases getLogInfo_defined_conditions task c p hg with ⟨h1, h2, h3, h4⟩
          exact ⟨by simp [hd], h1, h2, h3, h4⟩
      · rw [if_neg hcond] at h
        simp at h
  · intro hd
    simp [waitRunTaskMode, hd]

/-- Witness for C10: a task with no containers makes `GetLogInfo`
undefined even with a fully populated log configuration. -/
theorem logTail_requires_present_fields_witness : GetLogInfo sampleTask lcFull = none :=
  (logTail_requires_present_fields sampleTask lcFull).2.2.2.2.2 rfl

end Ecspresso
